import Mathlib

/-!
Verification of the entity-preserving translation aligner (translate.py).

Strings are modelled as lists of characters (`Str`), so that every Python
string operation used by the program (slicing, `count`, `index`, `strip`,
`split`, `replace(old, new, 1)`, concatenation) becomes an executable Lean
function on `List Char`.  The data model (TagType, TagCategory, Tag, Domain,
Word, Sentence) and the processing pipeline (bracketing, consistency
verification, template reconstruction, CoNLL serialization, the orchestrator
loop) are translated from the source.  Python `assert` failures and uncaught
exceptions (IndexError) are modelled as `fault` outcomes carrying a message.
-/

set_option maxRecDepth 10000

abbrev Str := List Char

def str (s : String) : Str := s.data

def spaceChar : Char := Char.ofNat 32

def nlChar : Char := Char.ofNat 10

def tabChar : Char := Char.ofNat 9

def hyphenChar : Char := Char.ofNat 45

def quChar : Char := Char.ofNat 34

/-- Corresponds to START_BRACKET = a double-quote character. -/
def START_BRACKET : Char := quChar

/-- Corresponds to END_BRACKET = a double-quote character. -/
def END_BRACKET : Char := quChar

def TEMPLATE_TOKEN : Str := str "<#TEMPLATE#>"

/-- The debug cap on emitted sentences (max_amt = 4 in the source). -/
def max_amt : Nat := 4

/-- Python str.strip with no arguments: remove whitespace from both ends. -/
def pyStrip (s : Str) : Str :=
  ((s.dropWhile Char.isWhitespace).reverse.dropWhile Char.isWhitespace).reverse

/-- Helper for pySplit: scan characters, accumulating the current token
reversed; whitespace closes the current token. -/
def pySplitGo : Str → Str → List Str
  | [], acc => if acc = [] then [] else [acc.reverse]
  | c :: rest, acc =>
    if c.isWhitespace then
      if acc = [] then pySplitGo rest [] else acc.reverse :: pySplitGo rest []
    else pySplitGo rest (c :: acc)

/-- Python str.split with no arguments: split on runs of whitespace,
producing no empty tokens. -/
def pySplit (s : Str) : List Str := pySplitGo s []

/-- Python join-with-separator concatenation of a list of strings. -/
def pyJoin (sep : Str) : List Str → Str
  | [] => []
  | x :: xs => x ++ (xs.map (fun y => sep ++ y)).flatten

/-- Python s.index(c) for a single character c (first index of c in s). -/
def py_index (c : Char) : Str → Nat
  | [] => 0
  | d :: rest => if d = c then 0 else py_index c rest + 1

/-- Boolean test that the first argument is a leading segment of the second. -/
def starts_with : Str → Str → Bool
  | [], _ => true
  | _ :: _, [] => false
  | c :: cs, d :: ds => c = d && starts_with cs ds

/-- Python substring containment test (`sub in s`). -/
def contains_sub (sub : Str) : Str → Bool
  | [] => starts_with sub []
  | c :: rest => starts_with sub (c :: rest) || contains_sub sub rest

/-- Python s.replace(old, new, 1): replace the first occurrence of old in s
with new; if old does not occur, return s unchanged. -/
def replace_one : Str → Str → Str → Str
  | [], old, new => if starts_with old [] then new else []
  | c :: rest, old, new =>
    if starts_with old (c :: rest) then new ++ (c :: rest).drop old.length
    else c :: replace_one rest old new

inductive TagType where
  | B
  | I
  | O
deriving DecidableEq

def TagType.value : TagType → Str
  | .B => str "B"
  | .I => str "I"
  | .O => str "O"

inductive TagCategory where
  | Empty
  | Facility
  | OtherLOC
  | HumanSettlement
  | Station
  | VisualWork
  | MusicalWork
  | WrittenWork
  | ArtWork
  | Software
  | OtherCW
  | MusicalGRP
  | PublicCorp
  | PrivateCorp
  | OtherCorp
  | AerospaceManufacturer
  | SportsGRP
  | CarManufacturer
  | TechCorp
  | ORG
  | Scientist
  | Artist
  | Athlete
  | Politician
  | Cleric
  | SportsManager
  | OtherPER
  | Clothing
  | Vehicle
  | Food
  | Drink
  | OtherPROD
  | MedicationVaccine
  | MedicalProcedure
  | AnatomicalStructure
  | Symptom
  | Disease
deriving DecidableEq

def TagCategory.value : TagCategory → Str
  | .Empty => []
  | .Facility => str "Facility"
  | .OtherLOC => str "OtherLOC"
  | .HumanSettlement => str "HumanSettlement"
  | .Station => str "Station"
  | .VisualWork => str "VisualWork"
  | .MusicalWork => str "MusicalWork"
  | .WrittenWork => str "WrittenWork"
  | .ArtWork => str "ArtWork"
  | .Software => str "Software"
  | .OtherCW => str "OtherCW"
  | .MusicalGRP => str "MusicalGRP"
  | .PublicCorp => str "PublicCorp"
  | .PrivateCorp => str "PrivateCorp"
  | .OtherCorp => str "OtherCorp"
  | .AerospaceManufacturer => str "AerospaceManufacturer"
  | .SportsGRP => str "SportsGRP"
  | .CarManufacturer => str "CarManufacturer"
  | .TechCorp => str "TechCorp"
  | .ORG => str "ORG"
  | .Scientist => str "Scientist"
  | .Artist => str "Artist"
  | .Athlete => str "Athlete"
  | .Politician => str "Politician"
  | .Cleric => str "Cleric"
  | .SportsManager => str "SportsManager"
  | .OtherPER => str "OtherPER"
  | .Clothing => str "Clothing"
  | .Vehicle => str "Vehicle"
  | .Food => str "Food"
  | .Drink => str "Drink"
  | .OtherPROD => str "OtherPROD"
  | .MedicationVaccine => str "Medication/Vaccine"
  | .MedicalProcedure => str "MedicalProcedure"
  | .AnatomicalStructure => str "AnatomicalStructure"
  | .Symptom => str "Symptom"
  | .Disease => str "Disease"

structure Tag where
  tag_type : TagType
  tag_category : TagCategory
deriving DecidableEq

/-- Canonical text form of a tag: "B-<category>", "I-<category>", or "O". -/
def Tag.tag_format (t : Tag) : Str :=
  t.tag_type.value ++
    (if t.tag_type ≠ TagType.O then hyphenChar :: t.tag_category.value else [])

inductive Domain where
  | BN
  | DE
  | EN
  | ES
  | FA
  | FR
  | HI
  | IT
  | PT
  | SV
  | UK
  | ZH
deriving DecidableEq

def Domain.value : Domain → Str
  | .BN => str "bn"
  | .DE => str "de"
  | .EN => str "en"
  | .ES => str "es"
  | .FA => str "fa"
  | .FR => str "fr"
  | .HI => str "hi"
  | .IT => str "it"
  | .PT => str "pt"
  | .SV => str "sv"
  | .UK => str "uk"
  | .ZH => str "zh"

/-- Domain(TARGET_LANGUAGE) with TARGET_LANGUAGE = "fr" in the source. -/
def TARGET_DOMAIN : Domain := Domain.FR

structure Word where
  token : Str
  tag : Tag
deriving DecidableEq

/-- Placeholder for Python's IndexError on out-of-range word access; never
reached on inputs satisfying the entity-index invariant. -/
def defaultWord : Word := ⟨[], ⟨TagType.O, TagCategory.Empty⟩⟩

structure Sentence where
  id_value : Option Str := none
  domain : Option Domain := none
  words : List Word := []
  entity_indexes : List Nat := []
deriving DecidableEq

/-- Sentence.add_word: append the word; if it is B-tagged also record its
position (len(words) - 1 after the append). -/
def Sentence.add_word (s : Sentence) (word : Word) : Sentence :=
  let words := s.words ++ [word]
  { s with
    words := words
    entity_indexes :=
      if word.tag.tag_type = TagType.B then s.entity_indexes ++ [words.length - 1]
      else s.entity_indexes }

/-- A sentence built from scratch by successive add_word calls. -/
def build_sentence (ws : List Word) : Sentence :=
  ws.foldl Sentence.add_word {}

/-- The character-accumulating loop inside get_bracketed_sentences, for a
single entity index: each word is preceded by a space; the entity start word
gets a leading bracket; the first later word that is not Inside-tagged closes
the bracket (dropping the just-added space, mirroring the [:-1] slice); a
still-open bracket is closed at sentence end. -/
def bracket_go (entity_index : Nat) : List Word → Nat → Bool → Str → Str
  | [], _, bracketing, acc => if bracketing then acc ++ [END_BRACKET] else acc
  | w :: ws, i, bracketing, acc =>
    let acc1 := acc ++ [spaceChar]
    if i = entity_index then
      bracket_go entity_index ws (i + 1) true (acc1 ++ START_BRACKET :: w.token)
    else if bracketing then
      if w.tag.tag_type ≠ TagType.I then
        bracket_go entity_index ws (i + 1) false
          (acc1.dropLast ++ END_BRACKET :: spaceChar :: w.token)
      else bracket_go entity_index ws (i + 1) true (acc1 ++ w.token)
    else bracket_go entity_index ws (i + 1) false (acc1 ++ w.token)

/-- One bracketed variant: the accumulated string, stripped. -/
def get_bracketed_sentence (ws : List Word) (entity_index : Nat) : Str :=
  pyStrip (bracket_go entity_index ws 0 false [])

/-- check_brackets: with identical markers, exactly two occurrences of the
marker character; with distinct markers, exactly one of each. -/
def check_brackets (s : Str) : Bool :=
  if START_BRACKET = END_BRACKET then s.count START_BRACKET == 2
  else s.count START_BRACKET == 1 && s.count END_BRACKET == 1

/-- The per-entity loop of get_bracketed_sentences: build each variant in
entity_indexes order; a variant failing check_brackets raises ValueError
(modelled as .error), and is never added to the returned list. -/
def bracketed_sentences_loop (ws : List Word) : List Nat → Except Str (List Str)
  | [] => .ok []
  | e :: es =>
    let bs := get_bracketed_sentence ws e
    if check_brackets bs then
      match bracketed_sentences_loop ws es with
      | .ok rest => .ok (bs :: rest)
      | .error msg => .error msg
    else .error (str "ValueError: Brackets were not done correctly")

def Sentence.get_bracketed_sentences (s : Sentence) : Except Str (List Str) :=
  bracketed_sentences_loop s.words s.entity_indexes

/-- The loop inside Sentence.get_entity: collect the token at the entity
start and the tokens of the following Inside-tagged run, space-separated. -/
def get_entity_go (entity_index : Nat) : Nat → List Word → Str → Str
  | _, [], entity => entity
  | i, word :: rest, entity =>
    if i = entity_index then
      get_entity_go entity_index (i + 1) rest (entity ++ word.token)
    else if entity_index < i then
      if word.tag.tag_type ≠ TagType.I then entity
      else get_entity_go entity_index (i + 1) rest (entity ++ spaceChar :: word.token)
    else get_entity_go entity_index (i + 1) rest entity

def Sentence.get_entity (s : Sentence) (k : Nat) : Str :=
  get_entity_go (s.entity_indexes.getD k 0) 0 s.words []

def Sentence.get_entities (s : Sentence) : List Str :=
  (List.range s.entity_indexes.length).map s.get_entity

def Sentence.get_entity_category (s : Sentence) (k : Nat) : TagCategory :=
  (s.words.getD (s.entity_indexes.getD k 0) defaultWord).tag.tag_category

def Sentence.get_entity_categories (s : Sentence) : List TagCategory :=
  (List.range s.entity_indexes.length).map s.get_entity_category

/-- get_bracket_indexes: index of the first marker, and of the next marker
after it (asserted to exist by check_brackets at every call site). -/
def get_bracket_indexes (s : Str) : Nat × Nat :=
  let start_bracket_index := py_index START_BRACKET s
  (start_bracket_index,
    start_bracket_index + 1 + py_index END_BRACKET (s.drop (start_bracket_index + 1)))

/-- remove_brackets: s[:si] + s[si+1:ei] + s[ei+1:]. -/
def remove_brackets (s : Str) : Str :=
  let p := get_bracket_indexes s
  s.take p.1 ++ (s.drop (p.1 + 1)).take (p.2 - (p.1 + 1)) ++ s.drop (p.2 + 1)

/-- get_bracketed_entity: the substring strictly between the two markers. -/
def get_bracketed_entity (s : Str) : Str :=
  let p := get_bracket_indexes s
  (s.drop (p.1 + 1)).take (p.2 - (p.1 + 1))

/-- The template-building loop: for each translated entity text in order,
replace its first occurrence in the current template with TEMPLATE_TOKEN. -/
def build_template (canonical : Str) (ents : List Str) : Str :=
  ents.foldl (fun template e => replace_one template e TEMPLATE_TOKEN) canonical

/-- add_conll_word: one serialized word line "<token> _ _ <tag_format>\n". -/
def add_conll_word_line (word : Word) : Str :=
  word.token ++ str " _ _ " ++ word.tag.tag_format ++ [nlChar]

/-- add_conll_id_line: "# id <id>\tdomain=<code>\n". -/
def add_conll_id_line (id_value : Str) (domain : Domain) : Str :=
  str "# id " ++ id_value ++ tabChar :: str "domain=" ++ domain.value ++ [nlChar]

/-- The word lines for one entity span: first sub-token B-tagged, the rest
I-tagged, all with the entity's category. -/
def bio_lines (tokens : List Str) (category : TagCategory) : Str :=
  (tokens.enum.map (fun p =>
    add_conll_word_line ⟨p.2, ⟨if p.1 = 0 then TagType.B else TagType.I, category⟩⟩)).flatten

inductive Warn where
  | bracketsNotFound
  | translationMismatch
  | templateTokenMismatch
deriving DecidableEq

/-- The per-translation verification loop: a translation without the bracket
pair triggers BracketsNotFoundWarning; one whose unbracketed form differs
from the main unbracketed translation triggers TranslationMismatchWarning. -/
def check_translations (main_unbracketed_translation : Str) : List Str → Option Warn
  | [] => none
  | translation :: rest =>
    if check_brackets translation = false then some .bracketsNotFound
    else if remove_brackets translation ≠ main_unbracketed_translation then
      some .translationMismatch
    else check_translations main_unbracketed_translation rest

/-- Outcome of processing one sentence: an uncaught fault (assertion or
index error), a warned non-fatal skip, or the pair of text blocks appended
to the original-language and translated-language output files. -/
inductive PSResult where
  | fault (msg : Str)
  | skip (w : Warn)
  | ok (orig trans : Str)
deriving DecidableEq

def INDEX_ERROR_MSG : Str := str "IndexError: list index out of range"

def ASSERT_BRACKETS_MSG : Str := str "AssertionError: check_brackets"

def ASSERT_LENGTHS_MSG : Str := str "AssertionError: entity token list lengths"

def ASSERT_TEMPLATE_MSG : Str := str "AssertionError: TEMPLATE_TOKEN already in template"

def ASSERT_TRANSLATIONS_MSG : Str := str "AssertionError: translations length"

def pyOptStr : Option Str → Str
  | none => str "None"
  | some s => s

/-- The reconstruction walk over the split template: a placeholder token
advances the entity cursor and appends the B/I-tagged sub-tokens of the
original entity text to the original-language file and of the translated
entity text to the translated-language file; any other token is appended
O-tagged, identically, to both files. -/
def walk (entity_categories : List TagCategory)
    (original_entity_tokens translated_entity_tokens : List Str) :
    List Str → Int → Str → Str → Str × Str
  | [], _, orig_acc, trans_acc => (orig_acc, trans_acc)
  | word :: rest, k, orig_acc, trans_acc =>
    if word = TEMPLATE_TOKEN then
      let k1 := k + 1
      let category := entity_categories.getD k1.toNat TagCategory.Empty
      let o_split := pySplit (original_entity_tokens.getD k1.toNat [])
      let t_split := pySplit (translated_entity_tokens.getD k1.toNat [])
      walk entity_categories original_entity_tokens translated_entity_tokens rest k1
        (orig_acc ++ bio_lines o_split category) (trans_acc ++ bio_lines t_split category)
    else
      let line := add_conll_word_line ⟨word, ⟨TagType.O, TagCategory.Empty⟩⟩
      walk entity_categories original_entity_tokens translated_entity_tokens rest k
        (orig_acc ++ line) (trans_acc ++ line)

/-- Declarative description of one side of the reconstruction walk, used to
state its correctness: the output is a concatenation over the split template
of either an entity's B/I block or a single O-tagged word line. -/
def reconstruction_lines (ents : List Str) (cats : List TagCategory) :
    List Str → Int → Str
  | [], _ => []
  | word :: rest, k =>
    if word = TEMPLATE_TOKEN then
      bio_lines (pySplit (ents.getD (k + 1).toNat [])) (cats.getD (k + 1).toNat .Empty) ++
        reconstruction_lines ents cats rest (k + 1)
    else
      add_conll_word_line ⟨word, ⟨TagType.O, TagCategory.Empty⟩⟩ ++
        reconstruction_lines ents cats rest k

/-- The body of the per-sentence loop (translate.py lines 377-461), from the
slice of translations to the text blocks written for the sentence.  The call
remove_brackets(translations[0]) at line 390 is modelled by its two failure
modes in source order: IndexError when there are no translations, and the
AssertionError of the check_brackets assert inside remove_brackets. -/
def process_sentence (sentence : Sentence) (translations : List Str) : PSResult :=
  let number_of_entities := sentence.entity_indexes.length
  match translations with
  | [] => .fault INDEX_ERROR_MSG
  | t0 :: _ =>
    if check_brackets t0 = false then .fault ASSERT_BRACKETS_MSG
    else
      let main_unbracketed_translation := remove_brackets t0
      match check_translations main_unbracketed_translation translations with
      | some w => .skip w
      | none =>
        let entity_categories := sentence.get_entity_categories
        let original_entity_tokens := sentence.get_entities
        let translated_entity_tokens := translations.map get_bracketed_entity
        if ¬ (entity_categories.length = original_entity_tokens.length ∧
              original_entity_tokens.length = translated_entity_tokens.length) then
          .fault ASSERT_LENGTHS_MSG
        else if contains_sub TEMPLATE_TOKEN main_unbracketed_translation then
          .fault ASSERT_TEMPLATE_MSG
        else
          let template := build_template main_unbracketed_translation translated_entity_tokens
          let split_template := pySplit template
          if split_template.count TEMPLATE_TOKEN ≠ number_of_entities then
            .skip .templateTokenMismatch
          else
            let example_id := pyOptStr sentence.id_value ++ hyphenChar :: str "-1"
            let id_line := add_conll_id_line example_id TARGET_DOMAIN
            let p := walk entity_categories original_entity_tokens
              translated_entity_tokens split_template (-1) id_line id_line
            .ok p.1 p.2

/-- Mutable state of the output loop: the cursor into the flat results list,
the accepted-sentence counter, and the contents of the two output files. -/
structure RunState where
  translations_index : Nat
  db_amt : Nat
  orig : Str
  trans : Str
deriving DecidableEq

/-- The orchestrator loop (translate.py lines 374-467): slice this
sentence's translations out of the results (asserting the count), process
the sentence, and either abort on a fault, continue on a skip, or append the
produced blocks, stopping at max_amt accepted sentences and otherwise
appending a "\n\n" separator to both files. -/
def run_loop (results : List Str) : List Sentence → RunState → RunState × Option Str
  | [], st => (st, none)
  | sentence :: rest, st =>
    let number_of_entities := sentence.entity_indexes.length
    let translations := (results.drop st.translations_index).take number_of_entities
    if translations.length ≠ number_of_entities then (st, some ASSERT_TRANSLATIONS_MSG)
    else
      let st1 := { st with translations_index := st.translations_index + number_of_entities }
      match process_sentence sentence translations with
      | .fault msg => (st1, some msg)
      | .skip _ => run_loop results rest st1
      | .ok o t =>
        let st2 := { st1 with
          db_amt := st1.db_amt + 1
          orig := st1.orig ++ o
          trans := st1.trans ++ t }
        if max_amt ≤ st2.db_amt then (st2, none)
        else run_loop results rest
          { st2 with orig := st2.orig ++ [nlChar, nlChar],
                     trans := st2.trans ++ [nlChar, nlChar] }

/-- Space-prefixed concatenation of the tokens of a word list; the building
block of the bracketed-variant characterization. -/
def Psp (ws : List Word) : Str := (ws.map (fun w => spaceChar :: w.token)).flatten

/-- Boolean form of the Inside-tag test used by the bracket-closing logic. -/
def isI (w : Word) : Bool := decide (w.tag.tag_type = TagType.I)

/-! Concrete example data, used by witness theorems.  The three-word example
sentence is the end-to-end scenario of the specification. -/

def exWB (t : String) (c : TagCategory) : Word := ⟨str t, ⟨TagType.B, c⟩⟩

def exWI (t : String) (c : TagCategory) : Word := ⟨str t, ⟨TagType.I, c⟩⟩

def exWO (t : String) : Word := ⟨str t, ⟨TagType.O, TagCategory.Empty⟩⟩

def exS : Sentence :=
  ⟨some (str "abc"), some Domain.EN,
    [exWB "Tongzhi" TagCategory.OtherPER, exWO "founded", exWB "IBM" TagCategory.TechCorp],
    [0, 2]⟩

def exT0 : Str := quChar :: str "Tongzhi" ++ quChar :: spaceChar :: str "founded IBM"

def exT1 : Str := str "Tongzhi founded " ++ quChar :: str "IBM" ++ [quChar]

/-- A sentence with no entities. -/
def exS0 : Sentence := ⟨some (str "z"), some Domain.EN, [exWO "hi"], []⟩

/-- A one-entity sentence. -/
def exS1 : Sentence :=
  ⟨some (str "p"), some Domain.EN,
    [exWB "Paris" TagCategory.HumanSettlement, exWO "is", exWO "nice"], [0]⟩

/-- A translation with no bracket characters at all. -/
def exBad : Str := str "Paris is nice"

/-- A one-entity sentence and a translation where punctuation fused onto the
closing bracket, so the placeholder count check fails. -/
def exSm : Sentence :=
  ⟨some (str "m"), some Domain.EN, [exWB "Paris" TagCategory.HumanSettlement, exWO "hi"], [0]⟩

def exTm : Str := quChar :: str "Paris" ++ quChar :: str ", hi"

/-- The serialized block produced for exS with translations [exT0, exT1]. -/
def exBlock : Str :=
  str "# id abc--1" ++ tabChar :: str "domain=fr" ++ nlChar :: str "Tongzhi _ _ B-OtherPER" ++
    nlChar :: str "founded _ _ O" ++ nlChar :: str "IBM _ _ B-TechCorp" ++ [nlChar]

def exResults : List Str := [exT0, exT1, exT0, exT1]

/-! ## General list helpers -/

theorem getLast?_append_right {α : Type _} (l₁ l₂ : List α) (h : l₂ ≠ []) :
    (l₁ ++ l₂).getLast? = l₂.getLast? := by
  rw [List.getLast?_append, List.getLast?_eq_getLast l₂ h]
  rfl

theorem dropWhile_head_not {α : Type _} (p : α → Bool) :
    ∀ (l : List α) (x : α) (xs : List α), l.dropWhile p = x :: xs → p x = false := by
  intro l
  induction l with
  | nil => intro x xs h; simp [List.dropWhile] at h
  | cons a l ih =>
    intro x xs h
    rw [List.dropWhile_cons] at h
    by_cases ha : p a = true
    · rw [if_pos ha] at h
      exact ih x xs h
    · rw [if_neg ha] at h
      injection h with h1 h2
      subst h1
      simpa using ha

theorem dropWhile_eq_self_of_head {α : Type _} (p : α → Bool) (l : List α)
    (h : ∀ c, l.head? = some c → p c = false) : l.dropWhile p = l := by
  cases l with
  | nil => rfl
  | cons a l => rw [List.dropWhile_cons, h a rfl]; simp

/-! ## Claim C8: the entity-index invariant of add_word -/

theorem foldl_add_word_words :
    ∀ (ws : List Word) (s0 : Sentence), (ws.foldl Sentence.add_word s0).words = s0.words ++ ws := by
  intro ws
  induction ws with
  | nil => intro s0; simp
  | cons w ws ih =>
    intro s0
    rw [List.foldl_cons, ih]
    simp [Sentence.add_word]

theorem foldl_add_word_entity_indexes :
    ∀ (ws : List Word) (s0 : Sentence),
    (ws.foldl Sentence.add_word s0).entity_indexes =
      s0.entity_indexes ++
        ((List.enumFrom s0.words.length ws).filter
          (fun p => decide (p.2.tag.tag_type = TagType.B))).map Prod.fst := by
  intro ws
  induction ws with
  | nil => intro s0; simp
  | cons w ws ih =>
    intro s0
    rw [List.foldl_cons, ih, List.enumFrom_cons]
    by_cases hB : w.tag.tag_type = TagType.B
    · simp [Sentence.add_word, hB, List.append_assoc]
    · simp [Sentence.add_word, hB]

theorem enumFrom_filter_map_lt (p : Word → Bool) :
    ∀ (ws : List Word) (n : Nat),
    (∀ x ∈ ((List.enumFrom n ws).filter (fun q => p q.2)).map Prod.fst, n ≤ x) ∧
    List.Pairwise (· < ·) (((List.enumFrom n ws).filter (fun q => p q.2)).map Prod.fst) := by
  intro ws
  induction ws with
  | nil => intro n; simp
  | cons w ws ih =>
    intro n
    rw [List.enumFrom_cons]
    by_cases hp : p w = true
    · rw [List.filter_cons_of_pos (by simpa using hp), List.map_cons]
      dsimp only
      constructor
      · intro x hx
        rcases List.mem_cons.mp hx with h | hx
        · omega
        · have := (ih (n + 1)).1 x hx
          omega
      · refine List.pairwise_cons.mpr ⟨?_, (ih (n + 1)).2⟩
        intro x hx
        have := (ih (n + 1)).1 x hx
        omega
    · rw [List.filter_cons_of_neg (by simpa using hp)]
      constructor
      · intro x hx
        have := (ih (n + 1)).1 x hx
        omega
      · exact (ih (n + 1)).2

/-- Claim C8: for every Sentence built by a sequence of add_word calls from
an empty Sentence, entity_indexes is exactly the ascending list of positions
whose word is Begin-tagged, and each append maintains it incrementally. -/
theorem c8_entity_indexes_invariant (ws : List Word) :
    (build_sentence ws).words = ws ∧
    (build_sentence ws).entity_indexes =
      (ws.enum.filter (fun p => decide (p.2.tag.tag_type = TagType.B))).map Prod.fst ∧
    List.Pairwise (· < ·) ((build_sentence ws).entity_indexes) ∧
    ∀ (s : Sentence) (w : Word),
      (s.add_word w).entity_indexes =
        s.entity_indexes ++ (if w.tag.tag_type = TagType.B then [s.words.length] else []) := by
  refine ⟨?_, ?_, ?_, ?_⟩
  · simpa using foldl_add_word_words ws {}
  · have h := foldl_add_word_entity_indexes ws {}
    simpa [build_sentence, List.enum] using h
  · have h := foldl_add_word_entity_indexes ws {}
    rw [build_sentence, h]
    simpa using (enumFrom_filter_map_lt (fun w => decide (w.tag.tag_type = TagType.B)) ws 0).2
  · intro s w
    by_cases hB : w.tag.tag_type = TagType.B <;> simp [Sentence.add_word, hB]

/-! ## Claim C7: the reconstruction walk -/

theorem walk_append_lines (cats : List TagCategory) (oents tents : List Str) :
    ∀ (tokens : List Str) (k : Int) (o t : Str),
    walk cats oents tents tokens k o t =
      (o ++ reconstruction_lines oents cats tokens k,
       t ++ reconstruction_lines tents cats tokens k) := by
  intro tokens
  induction tokens with
  | nil => intro k o t; simp [walk, reconstruction_lines]
  | cons word rest ih =>
    intro k o t
    by_cases h : word = TEMPLATE_TOKEN
    · simp [walk, reconstruction_lines, h, ih, List.append_assoc]
    · simp [walk, reconstruction_lines, h, ih, List.append_assoc]

/-- Claim C7: in the reconstruction walk, every non-placeholder token of the
split template contributes the same Outside-tagged word line to both output
files, and every placeholder token contributes, for the next entity k, the
B/I-tagged word lines of the whitespace-split original entity text to the
original-language file and of the whitespace-split translated entity text to
the translated-language file, both with entity k's category (the two
components share the function reconstruction_lines, applied to the original
and to the translated entity texts respectively). -/
theorem c7_reconstruction_walk (entity_categories : List TagCategory)
    (original_entity_tokens translated_entity_tokens : List Str)
    (split_template : List Str) (k : Int) (orig_acc trans_acc : Str) :
    walk entity_categories original_entity_tokens translated_entity_tokens
        split_template k orig_acc trans_acc =
      (orig_acc ++ reconstruction_lines original_entity_tokens entity_categories split_template k,
       trans_acc ++ reconstruction_lines translated_entity_tokens entity_categories split_template k) :=
  walk_append_lines entity_categories original_entity_tokens translated_entity_tokens
    split_template k orig_acc trans_acc

/-! ## Claim C10: sentences with zero entities abort the run -/

/-- Claim C10: a parsed sentence with no entities reaches
remove_brackets(translations[0]) with an empty translations list, raising an
uncaught IndexError: the run aborts with the state unchanged, no matter what
follows, instead of skipping the sentence. -/
theorem c10_zero_entity_abort (s : Sentence) (results : List Str)
    (rest : List Sentence) (st : RunState) (h : s.entity_indexes = []) :
    run_loop results (s :: rest) st = (st, some INDEX_ERROR_MSG) := by
  rw [run_loop, h]
  simp [process_sentence]

/-- Witness for C10 at a concrete entity-free sentence. -/
theorem c10_witness :
    exS0.entity_indexes = [] ∧
    run_loop [] [exS0] ⟨0, 0, [], []⟩ = (⟨0, 0, [], []⟩, some INDEX_ERROR_MSG) :=
  ⟨rfl, c10_zero_entity_abort exS0 [] [] ⟨0, 0, [], []⟩ rfl⟩

/-! ## Claim C5: first-remaining-occurrence template replacement -/

/-- Claim C5: the template loop handles entities in original order (each
foldl step rewrites the current template before the remaining entities are
processed); one replacement step rewrites exactly the first occurrence of
the entity text in the current template — the characterization below pins
the replacement to the least index where the text occurs; and in the
duplicate-entity scenario the two replacements consume two distinct
occurrences of the repeated text, never the same one twice. -/
theorem c5_first_occurrence_replacement :
    (∀ (canonical e : Str) (es : List Str),
      build_template canonical (e :: es) =
        build_template (replace_one canonical e TEMPLATE_TOKEN) es) ∧
    (∀ (t old new : Str) (i : Nat),
      starts_with old (t.drop i) = true →
      (∀ j, j < i → starts_with old (t.drop j) = false) →
      replace_one t old new = t.take i ++ new ++ t.drop (i + old.length)) ∧
    build_template (str "Paris is near Paris") [str "Paris", str "Paris"] =
      str "<#TEMPLATE#> is near <#TEMPLATE#>" := by
  refine ⟨fun canonical e es => rfl, ?_, by decide⟩
  intro t
  induction t with
  | nil =>
    intro old new i hocc hmin
    cases old with
    | nil =>
      cases i with
      | zero => simp [replace_one, starts_with]
      | succ j => simpa [starts_with] using hmin 0 (Nat.succ_pos j)
    | cons c cs => simp [starts_with] at hocc
  | cons a rest ih =>
    intro old new i hocc hmin
    cases i with
    | zero =>
      rw [List.drop_zero] at hocc
      simp [replace_one, hocc]
    | succ j =>
      have h0 : starts_with old (a :: rest) = false := by
        simpa using hmin 0 (Nat.succ_pos j)
      rw [replace_one, h0]
      simp only [Bool.false_eq_true, if_false]
      rw [ih old new j (by simpa using hocc) (fun j' hj' => by
        simpa using hmin (j' + 1) (by omega))]
      simp [List.take_succ_cons, List.drop_succ_cons, Nat.succ_add]

/-- Witness for the first-occurrence characterization of C5, at the string
"aXbXc" with pattern "X": the first occurrence is at index 1. -/
theorem c5_witness :
    (starts_with (str "X") ((str "aXbXc").drop 1) = true ∧
      ∀ j, j < 1 → starts_with (str "X") ((str "aXbXc").drop j) = false) ∧
    replace_one (str "aXbXc") (str "X") TEMPLATE_TOKEN =
      (str "aXbXc").take 1 ++ TEMPLATE_TOKEN ++ (str "aXbXc").drop (1 + (str "X").length) :=
  ⟨⟨by decide, by decide⟩,
    c5_first_occurrence_replacement.2.1 (str "aXbXc") (str "X") TEMPLATE_TOKEN 1
      (by decide) (by decide)⟩

/-! ## Claim C2: the consistency verifier -/

theorem check_translations_none_iff (main : Str) :
    ∀ (l : List Str), (∀ t ∈ l, check_brackets t = true) →
    (check_translations main l = none ↔ ∀ t ∈ l, remove_brackets t = main) := by
  intro l
  induction l with
  | nil => intro _; simp [check_translations]
  | cons t l ih =>
    intro hall
    have hct : check_brackets t = true := hall t (List.mem_cons_self t l)
    rw [check_translations, hct]
    simp only [Bool.true_eq_false, if_false]
    by_cases he : remove_brackets t = main
    · rw [if_neg (by simpa using he)]
      rw [ih (fun t' ht' => hall t' (List.mem_cons_of_mem t ht'))]
      constructor
      · intro h t' ht'
        rcases List.mem_cons.mp ht' with h' | h'
        · exact h' ▸ he
        · exact h t' h'
      · intro h t' ht'
        exact h t' (List.mem_cons_of_mem t ht')
    · rw [if_pos (by simpa using he)]
      constructor
      · intro h; exact absurd h (by simp)
      · intro h; exact absurd (h t (List.mem_cons_self t l)) he

theorem check_translations_mismatch (main : Str) :
    ∀ (l : List Str), (∀ t ∈ l, check_brackets t = true) →
    (∃ t ∈ l, remove_brackets t ≠ main) →
    check_translations main l = some .translationMismatch := by
  intro l
  induction l with
  | nil => intro _ hex; simp at hex
  | cons t l ih =>
    intro hall hex
    have hct : check_brackets t = true := hall t (List.mem_cons_self t l)
    rw [check_translations, hct]
    simp only [Bool.true_eq_false, if_false]
    by_cases he : remove_brackets t = main
    · rw [if_neg (by simpa using he)]
      refine ih (fun t' ht' => hall t' (List.mem_cons_of_mem t ht')) ?_
      rcases hex with ⟨t', ht', hne⟩
      rcases List.mem_cons.mp ht' with h' | h'
      · exact absurd (h' ▸ he) hne
      · exact ⟨t', h', hne⟩
    · rw [if_pos (by simpa using he)]

/-- Claim C2: when all N translations pass the bracket check, the verifier
accepts exactly when every unbracketed translation equals the unbracketed
first translation (hence when all are pairwise identical); a single
differing translation makes the sentence rejected as translation-mismatch. -/
theorem c2_verifier_accepts_iff (s : Sentence) (t0 : Str) (ts : List Str)
    (hall : ∀ t ∈ t0 :: ts, check_brackets t = true) :
    (check_translations (remove_brackets t0) (t0 :: ts) = none ↔
      ∀ t ∈ t0 :: ts, remove_brackets t = remove_brackets t0) ∧
    ((∃ t ∈ t0 :: ts, remove_brackets t ≠ remove_brackets t0) →
      process_sentence s (t0 :: ts) = .skip .translationMismatch) := by
  constructor
  · exact check_translations_none_iff (remove_brackets t0) (t0 :: ts) hall
  · intro hex
    have hmis := check_translations_mismatch (remove_brackets t0) (t0 :: ts) hall hex
    rw [process_sentence]
    rw [if_neg (by simp [hall t0 (List.mem_cons_self t0 ts)])]
    simp only [hmis]

/-- Witness for C2: two bracket-passing translations whose unbracketed forms
differ by one character are rejected as translation-mismatch. -/
theorem c2_witness :
    (∀ t ∈ [exT0, quChar :: str "Tongzhi" ++ quChar :: spaceChar :: str "founded IBN"],
      check_brackets t = true) ∧
    ((check_translations (remove_brackets exT0)
        [exT0, quChar :: str "Tongzhi" ++ quChar :: spaceChar :: str "founded IBN"] = none ↔
      ∀ t ∈ [exT0, quChar :: str "Tongzhi" ++ quChar :: spaceChar :: str "founded IBN"],
        remove_brackets t = remove_brackets exT0) ∧
    ((∃ t ∈ [exT0, quChar :: str "Tongzhi" ++ quChar :: spaceChar :: str "founded IBN"],
        remove_brackets t ≠ remove_brackets exT0) →
      process_sentence exS
          [exT0, quChar :: str "Tongzhi" ++ quChar :: spaceChar :: str "founded IBN"] =
        .skip .translationMismatch)) :=
  ⟨by decide,
    c2_verifier_accepts_iff exS exT0
      [quChar :: str "Tongzhi" ++ quChar :: spaceChar :: str "founded IBN"] (by decide)⟩

/-! ## Claim C3: the bracketing postcondition -/

theorem bracketed_loop_ok (ws : List Word) :
    ∀ (es : List Nat) (l : List Str), bracketed_sentences_loop ws es = .ok l →
    l = es.map (get_bracketed_sentence ws) ∧ ∀ v ∈ l, check_brackets v = true := by
  intro es
  induction es with
  | nil =>
    intro l h
    rw [bracketed_sentences_loop] at h
    injection h with h
    subst h
    simp
  | cons e es ih =>
    intro l h
    rw [bracketed_sentences_loop] at h
    by_cases hc : check_brackets (get_bracketed_sentence ws e) = true
    · rw [if_pos hc] at h
      cases hrec : bracketed_sentences_loop ws es with
      | ok rest =>
        rw [hrec] at h
        injection h with h
        obtain ⟨ih1, ih2⟩ := ih rest hrec
        subst h
        refine ⟨by rw [List.map_cons, ih1], ?_⟩
        intro v hv
        rcases List.mem_cons.mp hv with rfl | hv
        · exact hc
        · exact ih2 v hv
      | error msg =>
        rw [hrec] at h
        exact absurd h (by simp)
    · rw [if_neg hc] at h
      exact absurd h (by simp)

/-- Claim C3: whenever bracket_entities returns (rather than raising), it
returns exactly one bracketed string per entry of entity_indexes, in order,
and every returned string passes check_brackets (exactly two occurrences of
the shared marker character); a variant violating the postcondition makes
the whole call raise the ValueError (modelled as .error), so a violating
string is never silently returned. -/
theorem c3_bracketing_postcondition (s : Sentence) :
    (∀ l, s.get_bracketed_sentences = .ok l →
      l.length = s.entity_indexes.length ∧
      l = s.entity_indexes.map (get_bracketed_sentence s.words) ∧
      ∀ v ∈ l, check_brackets v = true) ∧
    (∀ e ∈ s.entity_indexes,
      check_brackets (get_bracketed_sentence s.words e) = false →
      ∀ l, s.get_bracketed_sentences ≠ .ok l) := by
  constructor
  · intro l h
    obtain ⟨h1, h2⟩ := bracketed_loop_ok s.words s.entity_indexes l h
    exact ⟨by rw [h1, List.length_map], h1, h2⟩
  · intro e he hbad l h
    obtain ⟨h1, h2⟩ := bracketed_loop_ok s.words s.entity_indexes l h
    have : get_bracketed_sentence s.words e ∈ l := by
      rw [h1]; exact List.mem_map_of_mem (get_bracketed_sentence s.words) he
    rw [h2 _ this] at hbad
    exact absurd hbad (by simp)

/-- Witness for C3 at the example sentence: two entities, two returned
variants, each passing check_brackets. -/
theorem c3_witness :
    exS.get_bracketed_sentences = .ok [exT0, exT1] ∧
    ([exT0, exT1].length = exS.entity_indexes.length ∧
      [exT0, exT1] = exS.entity_indexes.map (get_bracketed_sentence exS.words) ∧
      ∀ v ∈ [exT0, exT1], check_brackets v = true) :=
  ⟨by rfl, (c3_bracketing_postcondition exS).1 [exT0, exT1] (by rfl)⟩

/-! ## Claim C1: bracket failure in translations[0] is a fatal fault -/

/-- Claim C1 evaluation: a bracketless translations[0] hits the assert
inside remove_brackets at the line computing the main unbracketed
translation, before the warning loop can skip the sentence, aborting the
whole run; the same failure in a later translation is the documented
non-fatal skip.  This contradicts the claim that every bracket-check
failure, including in translations[0], is rejected non-fatally. -/
theorem c1_first_translation_fault :
    process_sentence exS1 [exBad] = .fault ASSERT_BRACKETS_MSG ∧
    run_loop [exBad] [exS1] ⟨0, 0, [], []⟩ = (⟨1, 0, [], []⟩, some ASSERT_BRACKETS_MSG) ∧
    process_sentence exS [exT0, str "Tongzhi founded IBM"] = .skip .bracketsNotFound :=
  ⟨by decide, by decide, by decide⟩

/-! ## Claim C6: template-token mismatch rejects atomically -/

/-- Claim C6: for a verified sentence (all translations pass the bracket
check and agree when unbracketed, and the canonical text passes the
template assert), a placeholder count differing from the entity count makes
the sentence rejected as template-token-mismatch; nothing is written (the
skip outcome carries no file content, since the id line is only written
after this check), and the orchestrator continues with the next sentence
leaving both output corpora unchanged. -/
theorem c6_template_mismatch_atomic (s : Sentence) (t0 : Str) (ts : List Str)
    (hlen : (t0 :: ts).length = s.entity_indexes.length)
    (hbr : ∀ t ∈ t0 :: ts, check_brackets t = true)
    (heq : ∀ t ∈ t0 :: ts, remove_brackets t = remove_brackets t0)
    (hno : contains_sub TEMPLATE_TOKEN (remove_brackets t0) = false)
    (hcount : (pySplit (build_template (remove_brackets t0)
        ((t0 :: ts).map get_bracketed_entity))).count TEMPLATE_TOKEN ≠
        s.entity_indexes.length) :
    process_sentence s (t0 :: ts) = .skip .templateTokenMismatch ∧
    ∀ (results : List Str) (rest : List Sentence) (st : RunState),
      (results.drop st.translations_index).take s.entity_indexes.length = t0 :: ts →
      run_loop results (s :: rest) st =
        run_loop results rest
          { st with translations_index := st.translations_index + s.entity_indexes.length } := by
  have hnone : check_translations (remove_brackets t0) (t0 :: ts) = none :=
    (check_translations_none_iff (remove_brackets t0) (t0 :: ts) hbr).mpr heq
  have hA : s.get_entity_categories.length = s.get_entities.length := by
    simp [Sentence.get_entity_categories, Sentence.get_entities]
  have hE : s.get_entities.length = s.entity_indexes.length := by
    simp [Sentence.get_entities]
  have hB : s.get_entities.length = ((t0 :: ts).map get_bracketed_entity).length := by
    rw [hE, List.length_map]
    exact hlen.symm
  have h1 : process_sentence s (t0 :: ts) = .skip .templateTokenMismatch := by
    rw [process_sentence]
    rw [if_neg (by simp [hbr t0 (List.mem_cons_self t0 ts)])]
    simp only [hnone]
    rw [if_neg (not_not_intro ⟨hA, hB⟩)]
    rw [if_neg (by simp [hno])]
    rw [if_pos hcount]
  refine ⟨h1, ?_⟩
  intro results rest st hslice
  rw [run_loop]
  simp only [hslice]
  rw [if_neg (not_not_intro hlen)]
  simp only [h1]

/-- Witness for C6: a trailing comma fused onto the closing bracket makes
the placeholder count 0 instead of 1; the sentence is skipped with both
corpora unchanged. -/
theorem c6_witness :
    ([exTm].length = exSm.entity_indexes.length ∧
      contains_sub TEMPLATE_TOKEN (remove_brackets exTm) = false ∧
      (pySplit (build_template (remove_brackets exTm)
          ([exTm].map get_bracketed_entity))).count TEMPLATE_TOKEN ≠
        exSm.entity_indexes.length) ∧
    process_sentence exSm [exTm] = .skip .templateTokenMismatch ∧
    run_loop [exTm] [exSm] ⟨0, 0, [], []⟩ =
      run_loop [exTm] []
        { (⟨0, 0, [], []⟩ : RunState) with
          translations_index := 0 + exSm.entity_indexes.length } :=
  ⟨⟨by decide, by decide, by decide⟩,
    (c6_template_mismatch_atomic exSm exTm [] (by decide) (by decide) (by decide)
      (by decide) (by decide)).1,
    (c6_template_mismatch_atomic exSm exTm [] (by decide) (by decide) (by decide)
      (by decide) (by decide)).2 [exTm] [] ⟨0, 0, [], []⟩ (by decide)⟩

/-! ## Claim C9: serialization format and sentence separator -/

/-- Counterexample to C9: running two accepted sentences, the translated
output file contains the two serialized blocks separated by the two-newline
string the writer appends (each block already ends in a newline, so two
blank lines stand between consecutive sentences), and it differs from the
single-blank-line layout the claim describes. -/
theorem c9_counterexample :
    (run_loop exResults [exS, exS] ⟨0, 0, [], []⟩).1.trans =
      exBlock ++ [nlChar, nlChar] ++ exBlock ++ [nlChar, nlChar] ∧
    (run_loop exResults [exS, exS] ⟨0, 0, [], []⟩).1.trans ≠
      exBlock ++ [nlChar] ++ exBlock ++ [nlChar] :=
  ⟨by decide, by decide⟩

/-- Claim C9 as amended: each accepted sentence pair is written to each
output file as the id line "# id <id>\tdomain=<code>" followed by one word
line "<token> _ _ <tag_format>" per word (the word lines being
reconstruction_lines, which emits add_conll_word_line for every token), and
after each accepted sentence (when the sentence cap is not yet reached) the
writer appends two newline characters to each file, so consecutive
serialized sentences are separated by two blank lines, not one. -/
theorem c9_amended_block_format (s : Sentence) (translations : List Str)
    (o t : Str) (results : List Str) (rest : List Sentence) (st : RunState)
    (hok : process_sentence s translations = .ok o t)
    (hslice : (results.drop st.translations_index).take s.entity_indexes.length = translations)
    (hlen : translations.length = s.entity_indexes.length)
    (hcap : st.db_amt + 1 < max_amt) :
    (∃ tokens : List Str,
      o = add_conll_id_line (pyOptStr s.id_value ++ hyphenChar :: str "-1") TARGET_DOMAIN ++
        reconstruction_lines s.get_entities s.get_entity_categories tokens (-1) ∧
      t = add_conll_id_line (pyOptStr s.id_value ++ hyphenChar :: str "-1") TARGET_DOMAIN ++
        reconstruction_lines (translations.map get_bracketed_entity)
          s.get_entity_categories tokens (-1)) ∧
    run_loop results (s :: rest) st =
      run_loop results rest
        { st with
          translations_index := st.translations_index + s.entity_indexes.length
          db_amt := st.db_amt + 1
          orig := st.orig ++ o ++ [nlChar, nlChar]
          trans := st.trans ++ t ++ [nlChar, nlChar] } := by
  constructor
  · cases translations with
    | nil => exact absurd hok (by simp [process_sentence])
    | cons t0 ts =>
      rw [process_sentence] at hok
      by_cases hc : check_brackets t0 = false
      · rw [if_pos hc] at hok
        simp at hok
      · rw [if_neg hc] at hok
        cases hcheck : check_translations (remove_brackets t0) (t0 :: ts) with
        | some w =>
          simp only [hcheck] at hok
          simp at hok
        | none =>
          simp only [hcheck] at hok
          split at hok
          · simp at hok
          · split at hok
            · simp at hok
            · split at hok
              · simp at hok
              · rw [walk_append_lines] at hok
                refine ⟨pySplit (build_template (remove_brackets t0)
                  ((t0 :: ts).map get_bracketed_entity)), ?_, ?_⟩
                · exact (PSResult.ok.injEq .. |>.mp hok).1.symm
                · exact (PSResult.ok.injEq .. |>.mp hok).2.symm
  · rw [run_loop]
    simp only [hslice]
    rw [if_neg (not_not_intro hlen)]
    simp only [hok]
    rw [if_neg (by simp; omega)]

/-- Witness for the amended C9 at the example sentence: the accepted block
is the id line followed by the word lines, and the writer appends the
two-newline separator. -/
theorem c9_witness :
    (process_sentence exS [exT0, exT1] = .ok exBlock exBlock ∧
      (exResults.drop 0).take exS.entity_indexes.length = [exT0, exT1] ∧
      ([exT0, exT1] : List Str).length = exS.entity_indexes.length ∧
      0 + 1 < max_amt) ∧
    ((∃ tokens : List Str,
      exBlock = add_conll_id_line (pyOptStr exS.id_value ++ hyphenChar :: str "-1") TARGET_DOMAIN ++
        reconstruction_lines exS.get_entities exS.get_entity_categories tokens (-1) ∧
      exBlock = add_conll_id_line (pyOptStr exS.id_value ++ hyphenChar :: str "-1") TARGET_DOMAIN ++
        reconstruction_lines ([exT0, exT1].map get_bracketed_entity)
          exS.get_entity_categories tokens (-1)) ∧
    run_loop exResults [exS] ⟨0, 0, [], []⟩ =
      run_loop exResults []
        { (⟨0, 0, [], []⟩ : RunState) with
          translations_index := 0 + exS.entity_indexes.length
          db_amt := 0 + 1
          orig := ([] : Str) ++ exBlock ++ [nlChar, nlChar]
          trans := ([] : Str) ++ exBlock ++ [nlChar, nlChar] }) :=
  ⟨⟨by decide, by decide, by decide, by decide⟩,
    c9_amended_block_format exS [exT0, exT1] exBlock exBlock exResults [] ⟨0, 0, [], []⟩
      (by decide) (by decide) (by decide) (by decide)⟩

/-! ## Claim C4: helper lemmas characterizing the bracketed variant -/

theorem psp_nil : Psp [] = [] := rfl

theorem psp_cons (w : Word) (ws : List Word) :
    Psp (w :: ws) = spaceChar :: w.token ++ Psp ws := by
  simp [Psp]

theorem psp_append (a b : List Word) : Psp (a ++ b) = Psp a ++ Psp b := by
  simp [Psp]

theorem bracket_go_skip_before (e : Nat) :
    ∀ (pre tail : List Word) (i : Nat) (acc : Str), i + pre.length ≤ e →
    bracket_go e (pre ++ tail) i false acc =
      bracket_go e tail (i + pre.length) false (acc ++ Psp pre) := by
  intro pre
  induction pre with
  | nil => intro tail i acc _; simp [Psp]
  | cons w pre ih =>
    intro tail i acc h
    simp only [List.length_cons] at h
    have hne : i ≠ e := by omega
    rw [List.cons_append, bracket_go, if_neg hne]
    simp only [Bool.false_eq_true, if_false]
    rw [ih tail (i + 1) ((acc ++ [spaceChar]) ++ w.token) (by omega)]
    have h1 : i + 1 + pre.length = i + (w :: pre).length := by simp; omega
    have h2 : ((acc ++ [spaceChar]) ++ w.token) ++ Psp pre = acc ++ Psp (w :: pre) := by
      rw [psp_cons]; simp [List.append_assoc]
    rw [h1, h2]

theorem bracket_go_inside (e : Nat) :
    ∀ (mid : List Word), (∀ w ∈ mid, w.tag.tag_type = TagType.I) →
    ∀ (tail : List Word) (i : Nat) (acc : Str), e < i →
    bracket_go e (mid ++ tail) i true acc =
      bracket_go e tail (i + mid.length) true (acc ++ Psp mid) := by
  intro mid
  induction mid with
  | nil => intro _ tail i acc _; simp [Psp]
  | cons w mid ih =>
    intro hmid tail i acc hlt
    have hne : i ≠ e := by omega
    rw [List.cons_append, bracket_go, if_neg hne, if_pos rfl]
    rw [if_neg (not_not_intro (hmid w (List.mem_cons_self w mid)))]
    rw [ih (fun w' hw' => hmid w' (List.mem_cons_of_mem w hw')) tail (i + 1)
      ((acc ++ [spaceChar]) ++ w.token) (by omega)]
    have h1 : i + 1 + mid.length = i + (w :: mid).length := by simp; omega
    have h2 : ((acc ++ [spaceChar]) ++ w.token) ++ Psp mid = acc ++ Psp (w :: mid) := by
      rw [psp_cons]; simp [List.append_assoc]
    rw [h1, h2]

theorem bracket_go_after (e : Nat) :
    ∀ (ps : List Word) (i : Nat) (acc : Str), e < i →
    bracket_go e ps i false acc = acc ++ Psp ps := by
  intro ps
  induction ps with
  | nil => intro i acc _; simp [bracket_go, Psp]
  | cons w ps ih =>
    intro i acc hlt
    have hne : i ≠ e := by omega
    rw [bracket_go, if_neg hne]
    simp only [Bool.false_eq_true, if_false]
    rw [ih (i + 1) ((acc ++ [spaceChar]) ++ w.token) (by omega)]
    rw [psp_cons]
    simp [List.append_assoc]

theorem bracket_go_closed_form (ws : List Word) (e : Nat) (h : e < ws.length) :
    bracket_go e ws 0 false [] =
      Psp (ws.take e) ++ spaceChar :: START_BRACKET :: ws[e].token ++
        Psp ((ws.drop (e + 1)).takeWhile isI) ++
        END_BRACKET :: Psp ((ws.drop (e + 1)).dropWhile isI) := by
  have hdec : ws = ws.take e ++ ws[e] :: ws.drop (e + 1) := by
    conv_lhs => rw [← List.take_append_drop e ws]
    rw [List.drop_eq_getElem_cons h]
  conv_lhs => rw [hdec]
  rw [bracket_go_skip_before e (ws.take e) (ws[e] :: ws.drop (e + 1)) 0 []
    (by rw [List.length_take]; omega)]
  have hlen : (0 : Nat) + (ws.take e).length = e := by
    rw [List.length_take]; omega
  rw [hlen, List.nil_append]
  rw [bracket_go, if_pos rfl]
  have hsplit : ws.drop (e + 1) =
      (ws.drop (e + 1)).takeWhile isI ++ (ws.drop (e + 1)).dropWhile isI :=
    (List.takeWhile_append_dropWhile isI (ws.drop (e + 1))).symm
  conv_lhs => rw [hsplit]
  rw [bracket_go_inside e ((ws.drop (e + 1)).takeWhile isI)
    (fun w hw => by simpa [isI] using List.mem_takeWhile_imp hw)
    ((ws.drop (e + 1)).dropWhile isI) (e + 1)
    ((Psp (ws.take e) ++ [spaceChar]) ++ START_BRACKET :: ws[e].token) (by omega)]
  cases hpost : (ws.drop (e + 1)).dropWhile isI with
  | nil =>
    rw [bracket_go]
    simp [Psp, List.append_assoc]
  | cons p ps =>
    have hpI : isI p = false := dropWhile_head_not isI (ws.drop (e + 1)) p ps hpost
    have hpI' : p.tag.tag_type ≠ TagType.I := by
      intro hc
      rw [isI, hc] at hpI
      simp at hpI
    rw [bracket_go, if_neg (by omega), if_pos rfl, if_pos hpI']
    rw [List.dropLast_concat]
    rw [bracket_go_after e ps (e + 1 + ((ws.drop (e + 1)).takeWhile isI).length + 1)
      _ (by omega)]
    rw [psp_cons]
    simp [List.append_assoc]

theorem dropWhile_reverse_eq (p : Char → Bool) (l : Str)
    (h : ∀ c, l.getLast? = some c → p c = false) : l.reverse.dropWhile p = l.reverse := by
  cases hr : l.reverse with
  | nil => rfl
  | cons c r =>
    have hlast : l.getLast? = some c := by
      have hl : l = (c :: r).reverse := by rw [← hr, List.reverse_reverse]
      rw [hl, List.reverse_cons, List.getLast?_concat]
    rw [List.dropWhile_cons, h c hlast]
    simp

theorem pyStrip_space_cons (V : Str) (hh : ∀ c, V.head? = some c → c.isWhitespace = false)
    (hl : ∀ c, V.getLast? = some c → c.isWhitespace = false) :
    pyStrip (spaceChar :: V) = V := by
  rw [pyStrip, List.dropWhile_cons, if_pos (by decide)]
  rw [dropWhile_eq_self_of_head Char.isWhitespace V hh]
  rw [dropWhile_reverse_eq Char.isWhitespace V hl, List.reverse_reverse]

theorem psp_getLast (ps : List Word) (hne : ps ≠ [])
    (htok : ∀ w ∈ ps, w.token ≠ []) :
    ∃ c w, w ∈ ps ∧ c ∈ w.token ∧ ∀ (l : Str), (l ++ Psp ps).getLast? = some c := by
  induction ps with
  | nil => exact absurd rfl hne
  | cons p ps ih =>
    cases hps : ps with
    | nil =>
      subst hps
      have hp : p.token ≠ [] := htok p (List.mem_cons_self p [])
      refine ⟨p.token.getLast hp, p, List.mem_cons_self p [], List.getLast_mem hp, ?_⟩
      intro l
      have hshape : l ++ Psp [p] = (l ++ [spaceChar]) ++ p.token := by
        rw [psp_cons, psp_nil]
        simp
      rw [hshape, getLast?_append_right _ _ hp, List.getLast?_eq_getLast _ hp]
    | cons q qs =>
      subst hps
      obtain ⟨c, w, hw, hc, hlast⟩ :=
        ih (by simp) (fun w' hw' => htok w' (List.mem_cons_of_mem p hw'))
      refine ⟨c, w, List.mem_cons_of_mem p hw, hc, ?_⟩
      intro l
      have hshape : l ++ Psp (p :: q :: qs) =
          (l ++ spaceChar :: p.token) ++ Psp (q :: qs) := by
        rw [psp_cons]
        simp [List.append_assoc]
      rw [hshape, hlast]

theorem py_index_append (c : Char) :
    ∀ (A : Str), c ∉ A → ∀ (B : Str), py_index c (A ++ c :: B) = A.length := by
  intro A
  induction A with
  | nil => intro _ B; simp [py_index]
  | cons a A ih =>
    intro hA B
    have ha : ¬ (a = c) := fun hc => hA (hc ▸ List.mem_cons_self a A)
    rw [List.cons_append, py_index, if_neg ha, ih (fun h => hA (List.mem_cons_of_mem a h)) B]
    simp

theorem remove_brackets_split (A B C : Str) (hA : quChar ∉ A) (hB : quChar ∉ B) :
    remove_brackets (A ++ quChar :: (B ++ quChar :: C)) = A ++ (B ++ C) := by
  have h1 : py_index START_BRACKET (A ++ quChar :: (B ++ quChar :: C)) = A.length :=
    py_index_append quChar A hA (B ++ quChar :: C)
  have h2 : (A ++ quChar :: (B ++ quChar :: C)).drop (A.length + 1) = B ++ quChar :: C := by
    rw [show A ++ quChar :: (B ++ quChar :: C) = (A ++ [quChar]) ++ (B ++ quChar :: C) by simp]
    exact List.drop_left' (by simp)
  have h3 : py_index END_BRACKET (B ++ quChar :: C) = B.length :=
    py_index_append quChar B hB C
  rw [remove_brackets, get_bracket_indexes]
  simp only [h1, h2, h3]
  have h4 : A.length + 1 + B.length - (A.length + 1) = B.length := by omega
  rw [h4]
  have h5 : (A ++ quChar :: (B ++ quChar :: C)).take A.length = A :=
    List.take_left' rfl
  have h6 : (B ++ quChar :: C).take B.length = B := List.take_left' rfl
  have h7 : (A ++ quChar :: (B ++ quChar :: C)).drop (A.length + 1 + B.length + 1) = C := by
    rw [show A ++ quChar :: (B ++ quChar :: C) = (A ++ quChar :: (B ++ [quChar])) ++ C by simp]
    refine List.drop_left' ?_
    simp
    omega
  rw [h5, h6, h7]
  exact List.append_assoc A B C

theorem check_brackets_count (s : Str) (h : check_brackets s = true) :
    s.count quChar = 2 := by
  rw [check_brackets, if_pos (show START_BRACKET = END_BRACKET from rfl)] at h
  simpa [START_BRACKET] using h

theorem count_two_no_qu (A B C : Str)
    (h : (A ++ quChar :: (B ++ quChar :: C)).count quChar = 2) :
    quChar ∉ A ∧ quChar ∉ B := by
  rw [List.count_append, List.count_cons, List.count_append, List.count_cons] at h
  simp at h
  constructor <;> (rw [← List.count_eq_zero]; omega)

theorem roundtrip_core (A B C : Str)
    (hcheck : check_brackets (A ++ quChar :: (B ++ quChar :: C)) = true) :
    remove_brackets (A ++ quChar :: (B ++ quChar :: C)) = A ++ (B ++ C) := by
  obtain ⟨hA, hB⟩ := count_two_no_qu A B C (check_brackets_count _ hcheck)
  exact remove_brackets_split A B C hA hB

theorem pyJoin_space_cons (w : Word) (ws : List Word) :
    pyJoin [spaceChar] ((w :: ws).map Word.token) = w.token ++ Psp ws := by
  simp [pyJoin, Psp, List.map_map, Function.comp]
  rfl

/-- Claim C4: every bracketed variant actually produced by bracket_entities
strips back to the sentence's plain text, its tokens joined by single
spaces, for sentences whose entity indexes are in range and whose tokens
are the parser's tokens (non-empty and whitespace-free). -/
theorem c4_bracket_roundtrip (s : Sentence) (l : List Str) (v : Str)
    (hidx : ∀ e ∈ s.entity_indexes, e < s.words.length)
    (htok : ∀ w ∈ s.words, w.token ≠ [] ∧ ∀ c ∈ w.token, c.isWhitespace = false)
    (hok : s.get_bracketed_sentences = .ok l) (hv : v ∈ l) :
    remove_brackets v = pyJoin [spaceChar] (s.words.map Word.token) := by
  obtain ⟨hmap, hcheckall⟩ := bracketed_loop_ok s.words s.entity_indexes l hok
  have hcheck : check_brackets v = true := hcheckall v hv
  rw [hmap] at hv
  obtain ⟨e, he, hve⟩ := List.mem_map.mp hv
  have helt : e < s.words.length := hidx e he
  have hcf := bracket_go_closed_form s.words e helt
  have hdec : s.words = s.words.take e ++ s.words[e] :: s.words.drop (e + 1) := by
    conv_lhs => rw [← List.take_append_drop e s.words]
    rw [List.drop_eq_getElem_cons helt]
  have hsplit : s.words.drop (e + 1) =
      (s.words.drop (e + 1)).takeWhile isI ++ (s.words.drop (e + 1)).dropWhile isI :=
    (List.takeWhile_append_dropWhile isI (s.words.drop (e + 1))).symm
  have htok_mid : ∀ w ∈ (s.words.drop (e + 1)).takeWhile isI,
      w.token ≠ [] ∧ ∀ c ∈ w.token, c.isWhitespace = false :=
    fun w hw => htok w (List.drop_subset (e + 1) s.words ((List.takeWhile_sublist isI).subset hw))
  have htok_post : ∀ w ∈ (s.words.drop (e + 1)).dropWhile isI,
      w.token ≠ [] ∧ ∀ c ∈ w.token, c.isWhitespace = false :=
    fun w hw => htok w (List.drop_subset (e + 1) s.words ((List.dropWhile_sublist isI).subset hw))
  -- the getLast? condition, shared by both head cases
  have hlastV : ∀ (A : Str), ∀ c,
      (A ++ quChar :: ((s.words[e].token ++ Psp ((s.words.drop (e + 1)).takeWhile isI)) ++
        quChar :: Psp ((s.words.drop (e + 1)).dropWhile isI))).getLast? = some c →
      c.isWhitespace = false := by
    intro A c hc
    cases hpp : (s.words.drop (e + 1)).dropWhile isI with
    | nil =>
      rw [hpp] at hc
      rw [show A ++ quChar :: ((s.words[e].token ++ Psp ((s.words.drop (e + 1)).takeWhile isI)) ++
          quChar :: Psp []) =
        (A ++ quChar :: (s.words[e].token ++ Psp ((s.words.drop (e + 1)).takeWhile isI))) ++
          [quChar] from by rw [psp_nil]; simp] at hc
      rw [List.getLast?_concat] at hc
      injection hc with hc
      rw [← hc]
      decide
    | cons p ps =>
      obtain ⟨c0, w, hw, hc0, hlast⟩ := psp_getLast (p :: ps) (by simp)
        (fun w' hw' => (htok_post w' (hpp ▸ hw')).1)
      rw [hpp] at hc
      rw [show A ++ quChar :: ((s.words[e].token ++ Psp ((s.words.drop (e + 1)).takeWhile isI)) ++
          quChar :: Psp (p :: ps)) =
        (A ++ quChar :: ((s.words[e].token ++ Psp ((s.words.drop (e + 1)).takeWhile isI)) ++
          [quChar])) ++ Psp (p :: ps) from by simp] at hc
      rw [hlast] at hc
      injection hc with hc
      rw [← hc]
      exact (htok_post w (hpp ▸ hw)).2 c0 hc0
  cases hpre : s.words.take e with
  | nil =>
    have hU : bracket_go e s.words 0 false [] =
        spaceChar :: (([] : Str) ++ quChar ::
          ((s.words[e].token ++ Psp ((s.words.drop (e + 1)).takeWhile isI)) ++
            quChar :: Psp ((s.words.drop (e + 1)).dropWhile isI))) := by
      rw [hcf, hpre, psp_nil]
      simp [START_BRACKET, END_BRACKET, List.append_assoc]
    have hv' : v = ([] : Str) ++ quChar ::
        ((s.words[e].token ++ Psp ((s.words.drop (e + 1)).takeWhile isI)) ++
          quChar :: Psp ((s.words.drop (e + 1)).dropWhile isI)) := by
      rw [← hve, get_bracketed_sentence, hU]
      refine pyStrip_space_cons _ ?_ (hlastV [])
      intro c hc
      simp only [List.nil_append, List.head?_cons] at hc
      injection hc with hc
      rw [← hc]
      decide
    rw [hv'] at hcheck ⊢
    rw [roundtrip_core _ _ _ hcheck]
    have hws2 : s.words = s.words[e] :: ((s.words.drop (e + 1)).takeWhile isI ++
        (s.words.drop (e + 1)).dropWhile isI) := by
      conv_lhs => rw [hdec, hpre, hsplit]
      simp
    conv_rhs => rw [hws2]
    rw [pyJoin_space_cons, psp_append]
    simp [List.append_assoc]
  | cons t ts =>
    have htmem : t ∈ s.words := by
      refine List.take_subset e s.words ?_
      rw [hpre]
      exact List.mem_cons_self t ts
    obtain ⟨htne, htws⟩ := htok t htmem
    have hU : bracket_go e s.words 0 false [] =
        spaceChar :: ((t.token ++ Psp ts ++ [spaceChar]) ++ quChar ::
          ((s.words[e].token ++ Psp ((s.words.drop (e + 1)).takeWhile isI)) ++
            quChar :: Psp ((s.words.drop (e + 1)).dropWhile isI))) := by
      rw [hcf, hpre, psp_cons]
      simp [START_BRACKET, END_BRACKET, List.append_assoc]
    have hv' : v = (t.token ++ Psp ts ++ [spaceChar]) ++ quChar ::
        ((s.words[e].token ++ Psp ((s.words.drop (e + 1)).takeWhile isI)) ++
          quChar :: Psp ((s.words.drop (e + 1)).dropWhile isI)) := by
      rw [← hve, get_bracketed_sentence, hU]
      refine pyStrip_space_cons _ ?_ (hlastV (t.token ++ Psp ts ++ [spaceChar]))
      intro c hc
      cases htt : t.token with
      | nil => exact absurd htt htne
      | cons c0 cs =>
        rw [htt] at hc
        simp only [List.cons_append, List.append_assoc, List.head?_cons] at hc
        injection hc with hc
        rw [← hc]
        exact htws c0 (htt ▸ List.mem_cons_self c0 cs)
    rw [hv'] at hcheck ⊢
    rw [roundtrip_core _ _ _ hcheck]
    have hws2 : s.words = t :: (ts ++ s.words[e] :: ((s.words.drop (e + 1)).takeWhile isI ++
        (s.words.drop (e + 1)).dropWhile isI)) := by
      conv_lhs => rw [hdec, hpre, hsplit]
      simp
    conv_rhs => rw [hws2]
    rw [pyJoin_space_cons, psp_append, psp_cons, psp_append]
    simp [List.append_assoc]

/-- Witness for C4 at the example sentence: the first bracketed variant
strips back to the plain space-joined token text. -/
theorem c4_witness :
    ((∀ e ∈ exS.entity_indexes, e < exS.words.length) ∧
      (∀ w ∈ exS.words, w.token ≠ [] ∧ ∀ c ∈ w.token, c.isWhitespace = false) ∧
      exS.get_bracketed_sentences = .ok [exT0, exT1] ∧ exT0 ∈ [exT0, exT1]) ∧
    remove_brackets exT0 = pyJoin [spaceChar] (exS.words.map Word.token) :=
  ⟨⟨by decide, by decide, by rfl, by decide⟩,
    c4_bracket_roundtrip exS [exT0, exT1] exT0 (by decide) (by decide) (by rfl) (by decide)⟩
